import Mathlib

/-
Verification of the AlgoTrader-India strategy workflow.

Shallow embedding of the strategy service (`checkRiskLimits`,
`executeStrategy`, `monitorPositions`, `calculatePnL`) and of the brokerage
gateway wrapper's `exitPosition`.  The managed remote store and the brokerage
HTTP API are external collaborators: each awaited call that can throw is
modelled as an `Except String` value supplied through an environment record,
and append-only writes (position rows, audit log rows) are returned as
explicit effect lists.  JavaScript numbers are modelled as integers (every
quantity appearing in the workflow and its examples is integral); JavaScript
truthiness tests on optional numeric fields are modelled by `jsTruthyNum`.
-/

namespace AlgoTrader

inductive Action where
  | BUY
  | SELL
  deriving DecidableEq

inductive InstrumentKind where
  | CE
  | PE
  deriving DecidableEq

inductive OrderStatus where
  | PENDING
  | EXECUTED
  | REJECTED
  deriving DecidableEq

inductive PosStatus where
  | OPEN
  | CLOSED
  deriving DecidableEq

inductive LogType where
  | INFO
  | WARNING
  | ERROR
  | TRADE
  deriving DecidableEq

inductive OrderKind where
  | MARKET
  | LIMIT
  deriving DecidableEq

inductive ProductKind where
  | INTRADAY
  | DELIVERY
  deriving DecidableEq

/-- The broker's order response shape: `{ orderId, status, message? }`. -/
structure OrderResponse where
  orderId : String
  status : OrderStatus
  message : Option String
  deriving DecidableEq

/-- One leg of a multi-leg strategy, as passed to `executeStrategy`. -/
structure StrategyLeg where
  symbol : String
  instrumentType : InstrumentKind
  strikePrice : ℤ
  expiryDate : String
  action : Action
  quantity : ℕ
  deriving DecidableEq

/-- Structured metadata attached to a `system_logs` row by the workflow. -/
inductive LogMeta where
  | null
  | legsList (legs : List StrategyLeg)
  | execFailure (strategyId : String) (errMsg : String)
  deriving DecidableEq

/-- A `system_logs` row as inserted by the workflow. -/
structure LogRec where
  log_type : LogType
  message : String
  metadata : LogMeta
  deriving DecidableEq

/-- True exactly on `Except.ok` (a call that returned rather than threw). -/
def exOk {α : Type} : Except String α → Bool
  | .ok _ => true
  | .error _ => false

/-- Decides whether `pat` is a leading run of `s` (character lists). -/
def charsHavePre : List Char → List Char → Bool
  | [], _ => true
  | _ :: _, [] => false
  | a :: as, b :: bs => a == b && charsHavePre as bs

/-- Decides whether `pat` occurs contiguously inside `s` (character lists). -/
def charsContain (pat : List Char) : List Char → Bool
  | [] => pat.isEmpty
  | c :: rest => charsHavePre pat (c :: rest) || charsContain pat rest

/-- JavaScript `String.prototype.includes`: substring containment. -/
def strIncludes (s pat : String) : Bool :=
  charsContain pat.data s.data

/-- JavaScript truthiness of a possibly-absent numeric field:
`undefined`/`null` and `0` are falsy, every other number is truthy. -/
def jsTruthyNum : Option ℤ → Bool
  | none => false
  | some v => v != 0

/-- JavaScript `Math.abs` on an (integral) number. -/
def mathAbs (q : ℤ) : ℤ :=
  if q < 0 then -q else q

/-- The `user_settings` fields read by the risk gate. -/
structure UserSettings where
  auto_trade_enabled : Bool
  max_open_positions : ℕ
  max_daily_loss : ℤ
  deriving DecidableEq

/--
The remote-store fetches performed by `checkRiskLimits`, in program order:
the user's settings row (`maybeSingle`, so the data may be absent), the ids
of the user's OPEN positions, and the `pnl` column (each value possibly
null) of the positions created since local midnight.  `Except.error` models
a fetch that throws; `Except.ok none` models a query that resolves with
null data.
-/
structure RiskEnv where
  settingsRes : Except String (Option UserSettings)
  openPositionsRes : Except String (Option (List String))
  todayPnlsRes : Except String (Option (List (Option ℤ)))

/-- `todayTrades.reduce((sum, pos) => sum + (pos.pnl || 0), 0)`. -/
def sumPnls (trades : List (Option ℤ)) : ℤ :=
  trades.foldl (fun sum p => sum + p.getD 0) 0

/-- Message of the daily-loss WARNING log:
`Daily loss limit reached: ₹${Math.abs(dailyPnl)}`. -/
def dailyLossMsg (dailyPnl : ℤ) : String :=
  "Daily loss limit reached: ₹" ++ toString (mathAbs dailyPnl)

/--
`checkRiskLimits(userId)` from the strategy service.  Returns the allow/deny
boolean together with the audit-log rows it inserted.  The surrounding
`try`/`catch` returns `false` on any thrown fetch error, so every `.error`
branch yields a denial and no exception escapes (the Lean function is total).
-/
def checkRiskLimits (env : RiskEnv) : Bool × List LogRec :=
  match env.settingsRes with
  | .error _ => (false, [])
  | .ok none => (false, [])
  | .ok (some settings) =>
    if !settings.auto_trade_enabled then (false, [])
    else
      match env.openPositionsRes with
      | .error _ => (false, [])
      | .ok openPositions =>
        let tooMany : Bool :=
          match openPositions with
          | some l => decide (settings.max_open_positions ≤ l.length)
          | none => false
        if tooMany then (false, [])
        else
          match env.todayPnlsRes with
          | .error _ => (false, [])
          | .ok todayTrades =>
            let dailyPnl : ℤ :=
              match todayTrades with
              | some l => sumPnls l
              | none => 0
            if dailyPnl < -settings.max_daily_loss then
              (false, [{ log_type := .WARNING, message := dailyLossMsg dailyPnl, metadata := .null }])
            else
              (true, [])

theorem charsHavePre_refl (l : List Char) : charsHavePre l l = true := by
  induction l with
  | nil => rfl
  | cons c r ih => simp [charsHavePre, ih]

theorem charsContain_append_right (pat ys : List Char) :
    charsContain pat (ys ++ pat) = true := by
  induction ys with
  | nil =>
    cases pat with
    | nil => rfl
    | cons c r => simp [charsContain, charsHavePre_refl]
  | cons y ys ih => simp [charsContain, ih]

theorem strIncludes_append_self (a b : String) : strIncludes (a ++ b) b = true := by
  simp [strIncludes, String.data_append, charsContain_append_right]

/-- The daily-loss WARNING message contains the printed loss magnitude. -/
theorem dailyLossMsg_contains_magnitude (d : ℤ) :
    strIncludes (dailyLossMsg d) (toString (mathAbs d)) = true := by
  unfold dailyLossMsg
  exact strIncludes_append_self _ _

/-- The risk gate either allows with no log rows or denies. -/
theorem checkRiskLimits_cases (env : RiskEnv) :
    checkRiskLimits env = (true, []) ∨ (checkRiskLimits env).1 = false := by
  obtain ⟨sRes, oRes, tRes⟩ := env
  simp only [checkRiskLimits]
  repeat' split
  all_goals simp

/-- If the risk gate allows, it wrote no log rows. -/
theorem checkRiskLimits_allow_no_logs (env : RiskEnv)
    (h : (checkRiskLimits env).1 = true) : checkRiskLimits env = (true, []) := by
  rcases checkRiskLimits_cases env with hc | hc
  · exact hc
  · rw [hc] at h
    cases h

/-- C4: if the user's settings exist with `auto_trade_enabled`, the open
position count is below `max_open_positions`, and the pnl values of today's
positions sum to strictly less than `-max_daily_loss`, then the risk gate
denies and writes exactly one WARNING log, whose message contains the
printed loss magnitude. -/
theorem riskGate_daily_loss_denial (s : UserSettings) (ops : List String)
    (pnls : List (Option ℤ))
    (ha : s.auto_trade_enabled = true)
    (hcount : ops.length < s.max_open_positions)
    (hloss : sumPnls pnls < -s.max_daily_loss) :
    checkRiskLimits ⟨.ok (some s), .ok (some ops), .ok (some pnls)⟩ =
      (false, [{ log_type := .WARNING, message := dailyLossMsg (sumPnls pnls),
                 metadata := .null }]) ∧
    strIncludes (dailyLossMsg (sumPnls pnls)) (toString (mathAbs (sumPnls pnls))) = true := by
  constructor
  · unfold checkRiskLimits
    simp only [ha, Bool.not_true, Bool.false_eq_true, if_false]
    have h1 : decide (s.max_open_positions ≤ ops.length) = false := by
      simpa using Nat.not_le_of_lt hcount
    simp [h1, hloss]
  · exact dailyLossMsg_contains_magnitude _

/-- Environment of the C4 example: auto-trade on, limit 5 open positions
(none open), `max_daily_loss = 10000`, today's positions summing to −12000. -/
def envC4 : RiskEnv :=
  ⟨.ok (some ⟨true, 5, 10000⟩), .ok (some []), .ok (some [some (-12000)])⟩

theorem riskGate_daily_loss_denial_witness :
    (checkRiskLimits envC4 =
        (false, [{ log_type := .WARNING,
                   message := dailyLossMsg (sumPnls [some (-12000)]),
                   metadata := .null }]) ∧
      strIncludes (dailyLossMsg (sumPnls [some (-12000)]))
        (toString (mathAbs (sumPnls [some (-12000)]))) = true) ∧
    strIncludes (dailyLossMsg (sumPnls [some (-12000)])) "12000" = true :=
  ⟨riskGate_daily_loss_denial ⟨true, 5, 10000⟩ [] [some (-12000)]
      rfl (by decide) (by decide),
    by decide⟩

/-- C5: when the settings row is absent or `auto_trade_enabled` is false,
the risk gate denies (and writes no log), regardless of the other fetches. -/
theorem riskGate_denies_without_auto_trade
    (sRes : Except String (Option UserSettings))
    (oRes : Except String (Option (List String)))
    (tRes : Except String (Option (List (Option ℤ))))
    (h : sRes = .ok none ∨
         ∃ s, sRes = .ok (some s) ∧ s.auto_trade_enabled = false) :
    checkRiskLimits ⟨sRes, oRes, tRes⟩ = (false, []) := by
  rcases h with h | ⟨s, h, ha⟩ <;> subst h
  · rfl
  · simp [checkRiskLimits, ha]

theorem riskGate_denies_without_auto_trade_witness :
    checkRiskLimits ⟨.ok none, .ok (some []), .ok (some [])⟩ = (false, []) :=
  riskGate_denies_without_auto_trade _ _ _ (Or.inl rfl)

/-- C6: if any of the risk gate's three remote-store fetches throws, the
gate returns `false` (fail closed); being a total Lean function, it returns
this denial rather than propagating the exception. -/
theorem riskGate_fail_closed_on_fetch_error (env : RiskEnv)
    (h : (∃ e, env.settingsRes = .error e) ∨
         (∃ e, env.openPositionsRes = .error e) ∨
         (∃ e, env.todayPnlsRes = .error e)) :
    (checkRiskLimits env).1 = false := by
  obtain ⟨sRes, oRes, tRes⟩ := env
  rcases h with ⟨e, h⟩ | ⟨e, h⟩ | ⟨e, h⟩ <;> subst h <;> unfold checkRiskLimits
  · rfl
  · rcases sRes with e2 | os
    · rfl
    · rcases os with _ | s
      · rfl
      · rcases hat : s.auto_trade_enabled <;> simp [hat]
  · rcases sRes with e2 | os
    · rfl
    · rcases os with _ | s
      · rfl
      · rcases hat : s.auto_trade_enabled <;> (simp [hat]; try (split <;> simp))

theorem riskGate_fail_closed_on_fetch_error_witness :
    (checkRiskLimits ⟨.error "network down", .ok (some []), .ok (some [])⟩).1 = false :=
  riskGate_fail_closed_on_fetch_error _ (Or.inl ⟨"network down", rfl⟩)

/-- The `risk_params` JSON of a strategy, as read by the monitor.  Each
field is an optional number (`undefined` when the strategy never set it). -/
structure RiskParams where
  targetProfit : Option ℤ
  maxLoss : Option ℤ
  deriving DecidableEq

/-- A `positions` row as read back by the monitor, joined (via
`select('*, trading_strategies(*)')`) with its owning strategy, of which
only `risk_params` is consulted; the join is absent when the strategy
reference is dangling. -/
structure Position where
  id : String
  symbol : String
  action : Action
  quantity : ℕ
  entry_price : ℤ
  trading_strategies : Option RiskParams
  deriving DecidableEq

/-- The lot-size line of `calculatePnL`:
`position.symbol.includes('NIFTY') && !position.symbol.includes('BANK') ? 50 : 15`. -/
def lotSize (symbol : String) : ℤ :=
  if strIncludes symbol "NIFTY" && !strIncludes symbol "BANK" then 50 else 15

/-- `calculatePnL(position, currentPrice)` from the strategy service. -/
def calculatePnL (position : Position) (currentPrice : ℤ) : ℤ :=
  let lotSz := lotSize position.symbol
  let priceChange := currentPrice - position.entry_price
  let multiplier : ℤ := if position.action == .BUY then 1 else -1
  priceChange * multiplier * lotSz * position.quantity

/-- The BUY position of the C2 example: NIFTY-family symbol (lot 50),
quantity 2, entry price 100, no owning strategy needed. -/
def buyPosC2 : Position :=
  ⟨"pos-buy", "NIFTY", .BUY, 2, 100, none⟩

/-- The SELL position of the C2 example. -/
def sellPosC2 : Position :=
  ⟨"pos-sell", "NIFTY", .SELL, 2, 100, none⟩

/-- C2: `calculatePnL` is `(currentPrice − entryPrice) × directionSign ×
lotSize × quantity` with direction sign +1 for BUY and −1 for SELL, where
the lot size is 50 for a symbol containing `NIFTY` but not `BANK` (the
code's substring test for "NIFTY-family but not BANKNIFTY") and 15 for
every other symbol; at entry 100, current 120, lot 50, quantity 2 the BUY
position yields 2000 and the SELL position −2000. -/
theorem calculatePnL_formula_spec :
    (∀ (p : Position) (currentPrice : ℤ),
        calculatePnL p currentPrice =
          (currentPrice - p.entry_price) * (if p.action = .BUY then 1 else -1) *
            lotSize p.symbol * (p.quantity : ℤ)) ∧
    lotSize "NIFTY" = 50 ∧ lotSize "FINNIFTY" = 50 ∧
    lotSize "BANKNIFTY" = 15 ∧ lotSize "SENSEX" = 15 ∧
    lotSize buyPosC2.symbol = 50 ∧
    calculatePnL buyPosC2 120 = 2000 ∧ calculatePnL sellPosC2 120 = -2000 := by
  refine ⟨fun p currentPrice => ?_, by decide, by decide, by decide, by decide,
    by decide, by decide, by decide⟩
  cases hact : p.action <;> simp [calculatePnL, hact]

/-- The order-request shape sent to the brokerage gateway. -/
structure OrderRequest where
  symbol : String
  action : Action
  quantity : ℕ
  orderType : OrderKind
  product : ProductKind
  deriving DecidableEq

/-- The market intraday order `executeStrategy` builds for one leg. -/
def legOrderRequest (leg : StrategyLeg) : OrderRequest :=
  { symbol := leg.symbol, action := leg.action, quantity := leg.quantity,
    orderType := .MARKET, product := .INTRADAY }

/-- A `positions` row as inserted by `executeStrategy`. -/
structure PositionRow where
  user_id : String
  strategy_id : String
  broker_order_id : String
  symbol : String
  instrument_type : InstrumentKind
  strike_price : ℤ
  expiry_date : String
  action : Action
  quantity : ℕ
  entry_price : ℤ
  status : PosStatus
  deriving DecidableEq

/-- The position row `executeStrategy` inserts for an executed leg:
status OPEN and entry price 0 (to be corrected by the monitor). -/
def mkPositionRow (userId strategyId orderId : String) (leg : StrategyLeg) : PositionRow :=
  { user_id := userId, strategy_id := strategyId, broker_order_id := orderId,
    symbol := leg.symbol, instrument_type := leg.instrumentType,
    strike_price := leg.strikePrice, expiry_date := leg.expiryDate,
    action := leg.action, quantity := leg.quantity,
    entry_price := 0, status := .OPEN }

/-- Effects and outcome of the per-leg loop of `executeStrategy`. -/
structure LegsOutcome where
  orders : List OrderRequest
  rows : List PositionRow
  outcome : Except String Unit

/--
Environment of `executeStrategy`: the risk gate's fetches plus the
brokerage gateway's response to the n-th `placeOrder` call (counted from 0
in leg order); `Except.error` models a call that throws.
-/
structure ExecEnv where
  riskEnv : RiskEnv
  placeOrder : ℕ → Except String OrderResponse

/-- The `for (const leg of legs)` loop of `executeStrategy`: place each
leg's order in caller order; insert an OPEN position row with entry price 0
when the response status is EXECUTED; silently skip other statuses; stop at
the first thrown call, keeping the rows already inserted. -/
def runLegs (po : ℕ → Except String OrderResponse) (userId strategyId : String) :
    List StrategyLeg → ℕ → LegsOutcome
  | [], _ => ⟨[], [], .ok ()⟩
  | leg :: rest, i =>
    match po i with
    | .error e => ⟨[legOrderRequest leg], [], .error e⟩
    | .ok resp =>
      let newRows :=
        if resp.status == .EXECUTED then [mkPositionRow userId strategyId resp.orderId leg]
        else []
      let r := runLegs po userId strategyId rest (i + 1)
      ⟨legOrderRequest leg :: r.orders, newRows ++ r.rows, r.outcome⟩

/-- Observable outcome of one `executeStrategy` invocation: orders sent,
position rows inserted, `system_logs` rows inserted (including any row the
risk gate wrote), and the returned/raised result. -/
structure ExecResult where
  ordersSubmitted : List OrderRequest
  positionsCreated : List PositionRow
  logs : List LogRec
  result : Except String Unit

/-- Message of the error thrown on a risk-gate denial. -/
def riskDenyMsg : String := "Risk limits exceeded. Cannot execute strategy."

/-- Message of the ERROR audit log: `Strategy execution failed: ${error.message}`. -/
def execFailMsg (e : String) : String := "Strategy execution failed: " ++ e

/--
`executeStrategy(userId, strategyId, legs)` from the strategy service.
On a denial it throws `riskDenyMsg` before any leg; on full completion it
writes one TRADE log whose metadata carries all submitted legs; the
`catch` block writes an ERROR log carrying the failure message and the
strategy id, then re-throws.
-/
def executeStrategy (env : ExecEnv) (userId strategyId : String)
    (legs : List StrategyLeg) : ExecResult :=
  let rc := checkRiskLimits env.riskEnv
  if rc.1 then
    let r := runLegs env.placeOrder userId strategyId legs 0
    match r.outcome with
    | .ok _ =>
      ⟨r.orders, r.rows,
        rc.2 ++ [⟨.TRADE, "Strategy executed: " ++ strategyId, .legsList legs⟩], .ok ()⟩
    | .error e =>
      ⟨r.orders, r.rows,
        rc.2 ++ [⟨.ERROR, execFailMsg e, .execFailure strategyId e⟩], .error e⟩
  else
    ⟨[], [],
      rc.2 ++ [⟨.ERROR, execFailMsg riskDenyMsg, .execFailure strategyId riskDenyMsg⟩],
      .error riskDenyMsg⟩

/-- When every `placeOrder` call returns, the leg loop completes, submits
one order per leg, and inserts exactly the rows of the executed legs. -/
theorem runLegs_all_ok (po : ℕ → Except String OrderResponse) (u sid : String) :
    ∀ (legs : List StrategyLeg) (k : ℕ),
      (∀ i, i < legs.length → exOk (po (k + i)) = true) →
      (runLegs po u sid legs k).outcome = .ok () ∧
      (runLegs po u sid legs k).rows =
        (legs.enumFrom k).filterMap (fun q =>
          match po q.1 with
          | .ok resp =>
            if resp.status == .EXECUTED then some (mkPositionRow u sid resp.orderId q.2)
            else none
          | .error _ => none) ∧
      (runLegs po u sid legs k).orders = legs.map legOrderRequest := by
  intro legs
  induction legs with
  | nil => intro k h; exact ⟨rfl, rfl, rfl⟩
  | cons leg rest ih =>
    intro k h
    have h0 : exOk (po k) = true := by simpa using h 0 (by simp)
    rcases hpo : po k with e | resp
    · rw [hpo] at h0; simp [exOk] at h0
    · have hrest : ∀ i, i < rest.length → exOk (po ((k + 1) + i)) = true := by
        intro i hi
        have hh := h (i + 1) (by simp; omega)
        rwa [show k + (i + 1) = (k + 1) + i by omega] at hh
      obtain ⟨ho, hr, hos⟩ := ih (k + 1) hrest
      refine ⟨by simp [runLegs, hpo, ho], ?_, by simp [runLegs, hpo, hos]⟩
      simp only [runLegs, hpo, List.enumFrom, List.filterMap_cons]
      cases hst : resp.status == OrderStatus.EXECUTED <;> simp [hst, hr]

/-- When the first thrown `placeOrder` call is the one for leg `i`, the leg
loop stops with that error. -/
theorem runLegs_first_error (po : ℕ → Except String OrderResponse) (u sid : String) :
    ∀ (legs : List StrategyLeg) (i k : ℕ) (e : String), i < legs.length →
      (∀ j, j < i → exOk (po (k + j)) = true) →
      po (k + i) = .error e →
      (runLegs po u sid legs k).outcome = .error e := by
  intro legs
  induction legs with
  | nil => intro i k e hi _ _; simp at hi
  | cons leg rest ih =>
    intro i k e hi hpre hpo
    cases i with
    | zero =>
      rw [Nat.add_zero] at hpo
      simp [runLegs, hpo]
    | succ n =>
      have h0 : exOk (po k) = true := by simpa using hpre 0 (Nat.succ_pos n)
      rcases hk : po k with e2 | resp
      · rw [hk] at h0; simp [exOk] at h0
      · have hpre2 : ∀ j, j < n → exOk (po ((k + 1) + j)) = true := by
          intro j hj
          have hh := hpre (j + 1) (by omega)
          rwa [show k + (j + 1) = (k + 1) + j by omega] at hh
        have hpo2 : po ((k + 1) + n) = .error e := by
          rwa [show (k + 1) + n = k + (n + 1) by omega]
        have hout := ih n (k + 1) e (by simp at hi; omega) hpre2 hpo2
        simp [runLegs, hk, hout]

/-- C1: when the risk gate allows and every per-leg `placeOrder` call
returns a response, `executeStrategy` raises no error, inserts exactly one
OPEN position row with entry price 0 for each leg whose response status is
EXECUTED (and none for PENDING or REJECTED legs), and writes exactly one
audit log: a TRADE log whose metadata lists all submitted legs. -/
theorem executeStrategy_fills_executed_legs (env : ExecEnv) (u sid : String)
    (legs : List StrategyLeg)
    (hAllow : (checkRiskLimits env.riskEnv).1 = true)
    (hOk : ∀ i, i < legs.length → exOk (env.placeOrder i) = true) :
    (executeStrategy env u sid legs).result = .ok () ∧
    (executeStrategy env u sid legs).positionsCreated =
      (legs.enumFrom 0).filterMap (fun q =>
        match env.placeOrder q.1 with
        | .ok resp =>
          if resp.status == .EXECUTED then some (mkPositionRow u sid resp.orderId q.2)
          else none
        | .error _ => none) ∧
    (∀ row ∈ (executeStrategy env u sid legs).positionsCreated,
        row.status = .OPEN ∧ row.entry_price = 0) ∧
    (executeStrategy env u sid legs).logs =
      [⟨.TRADE, "Strategy executed: " ++ sid, .legsList legs⟩] := by
  have hck := checkRiskLimits_allow_no_logs env.riskEnv hAllow
  obtain ⟨ho, hr, hos⟩ := runLegs_all_ok env.placeOrder u sid legs 0
    (by intro i hi; simpa using hOk i hi)
  have hstep : executeStrategy env u sid legs =
      ⟨(runLegs env.placeOrder u sid legs 0).orders,
       (runLegs env.placeOrder u sid legs 0).rows,
       [⟨.TRADE, "Strategy executed: " ++ sid, .legsList legs⟩], .ok ()⟩ := by
    simp [executeStrategy, hck, ho]
  refine ⟨by rw [hstep], by rw [hstep]; exact hr, ?_, by rw [hstep]⟩
  intro row hrow
  rw [hstep] at hrow
  simp only at hrow
  rw [hr] at hrow
  simp only [List.mem_filterMap] at hrow
  obtain ⟨q, hq, hfq⟩ := hrow
  rcases hpo : env.placeOrder q.1 with e | resp
  · rw [hpo] at hfq; simp at hfq
  · rw [hpo] at hfq
    rcases hst : resp.status == OrderStatus.EXECUTED
    · simp [hst] at hfq
    · simp [hst] at hfq
      subst hfq
      exact ⟨rfl, rfl⟩

/-- Environment of the C1 example: the risk gate allows; the three legs'
orders report EXECUTED, REJECTED, EXECUTED in that order. -/
def envC1 : ExecEnv :=
  ⟨⟨.ok (some ⟨true, 10, 10000⟩), .ok (some []), .ok (some [])⟩,
   fun i =>
     if i == 0 then .ok ⟨"ORD-1", .EXECUTED, none⟩
     else if i == 1 then .ok ⟨"ORD-2", .REJECTED, some "margin shortfall"⟩
     else if i == 2 then .ok ⟨"ORD-3", .EXECUTED, none⟩
     else .error "no such call"⟩

/-- The three legs of the C1 example. -/
def legsC1 : List StrategyLeg :=
  [⟨"NIFTY24DEC24000CE", .CE, 24000, "2024-12-26", .BUY, 1⟩,
   ⟨"NIFTY24DEC24200CE", .CE, 24200, "2024-12-26", .SELL, 1⟩,
   ⟨"NIFTY24DEC23800PE", .PE, 23800, "2024-12-26", .BUY, 1⟩]

theorem executeStrategy_fills_executed_legs_witness :
    ((executeStrategy envC1 "user-1" "strat-1" legsC1).result = .ok () ∧
      (executeStrategy envC1 "user-1" "strat-1" legsC1).positionsCreated =
        (legsC1.enumFrom 0).filterMap (fun q =>
          match envC1.placeOrder q.1 with
          | .ok resp =>
            if resp.status == .EXECUTED then
              some (mkPositionRow "user-1" "strat-1" resp.orderId q.2)
            else none
          | .error _ => none) ∧
      (∀ row ∈ (executeStrategy envC1 "user-1" "strat-1" legsC1).positionsCreated,
          row.status = .OPEN ∧ row.entry_price = 0) ∧
      (executeStrategy envC1 "user-1" "strat-1" legsC1).logs =
        [⟨.TRADE, "Strategy executed: " ++ "strat-1", .legsList legsC1⟩]) ∧
    (executeStrategy envC1 "user-1" "strat-1" legsC1).positionsCreated.length = 2 :=
  ⟨executeStrategy_fills_executed_legs envC1 "user-1" "strat-1" legsC1
      (by decide) (by decide),
    by decide⟩

/-- C7: `executeStrategy` raises whenever the risk gate denies (with the
"risk limits exceeded" message, before any leg order is attempted) and
whenever a downstream `placeOrder` call throws; on every failure the last
audit log written is an ERROR log carrying the failure message and the
strategy id, after which the error is re-raised. -/
theorem executeStrategy_failure_logging (env : ExecEnv) (u sid : String)
    (legs : List StrategyLeg) :
    ((checkRiskLimits env.riskEnv).1 = false →
      (executeStrategy env u sid legs).result = .error riskDenyMsg ∧
      (executeStrategy env u sid legs).ordersSubmitted = [] ∧
      (executeStrategy env u sid legs).positionsCreated = []) ∧
    (∀ i e, (checkRiskLimits env.riskEnv).1 = true → i < legs.length →
      (∀ j, j < i → exOk (env.placeOrder j) = true) →
      env.placeOrder i = .error e →
      (executeStrategy env u sid legs).result = .error e) ∧
    (∀ e, (executeStrategy env u sid legs).result = .error e →
      (executeStrategy env u sid legs).logs.getLast? =
        some ⟨.ERROR, execFailMsg e, .execFailure sid e⟩) := by
  refine ⟨fun h => ?_, fun i e hAllow hi hpre hpo => ?_, fun e h => ?_⟩
  · simp [executeStrategy, h]
  · have hout := runLegs_first_error env.placeOrder u sid legs i 0 e hi
      (by intro j hj; simpa using hpre j hj) (by simpa using hpo)
    simp [executeStrategy, hAllow, hout]
  · rcases hc : (checkRiskLimits env.riskEnv).1 with _ | _
    · simp only [executeStrategy, hc, Bool.false_eq_true, if_false] at h ⊢
      simp only [Except.error.injEq] at h
      subst h
      exact List.getLast?_concat _
    · rcases hout : (runLegs env.placeOrder u sid legs 0).outcome with e2 | u2
      · simp only [executeStrategy, hc, if_true, hout] at h ⊢
        simp only [Except.error.injEq] at h
        subst h
        exact List.getLast?_concat _
      · simp [executeStrategy, hc, hout] at h

/-- Environment of the C7 example: the settings row is absent, so the risk
gate denies. -/
def envC7 : ExecEnv :=
  ⟨⟨.ok none, .ok (some []), .ok (some [])⟩, fun _ => .error "never called"⟩

theorem executeStrategy_failure_logging_witness :
    (executeStrategy envC7 "user-1" "strat-1" legsC1).result = .error riskDenyMsg ∧
    (executeStrategy envC7 "user-1" "strat-1" legsC1).ordersSubmitted = [] ∧
    (executeStrategy envC7 "user-1" "strat-1" legsC1).positionsCreated = [] :=
  (executeStrategy_failure_logging envC7 "user-1" "strat-1" legsC1).1 (by decide)

instance exceptDecEq {ε α : Type} [DecidableEq ε] [DecidableEq α] :
    DecidableEq (Except ε α) := fun a b =>
  match a, b with
  | .error x, .error y => decidable_of_iff (x = y) (by simp)
  | .ok x, .ok y => decidable_of_iff (x = y) (by simp)
  | .error _, .ok _ => .isFalse (fun h => Except.noConfusion h)
  | .ok _, .error _ => .isFalse (fun h => Except.noConfusion h)

/-- Effects of the monitor visible in the remote store and at the gateway:
position updates `(id, current_price, pnl)`, ids passed to the gateway's
exit-position operation, and `system_logs` rows inserted. -/
structure MonEffects where
  updates : List (String × ℤ × ℤ)
  exits : List String
  logs : List LogRec
  deriving DecidableEq

/--
Environment of `monitorPositions`: the fetch of the user's OPEN positions
(joined with their strategies), the gateway's last traded price per symbol,
and the gateway's response to exiting a given position id.  `Except.error`
models a call that throws.
-/
structure MonEnv where
  positionsRes : Except String (Option (List Position))
  marketLtp : String → Except String ℤ
  exitPositionRes : String → Except String OrderResponse

/-- The stop-loss condition `riskParams.maxLoss && pnl <= -riskParams.maxLoss`
(JavaScript truthiness: an absent or zero `maxLoss` is falsy). -/
def stopLossHit (rp : RiskParams) (pnl : ℤ) : Bool :=
  jsTruthyNum rp.maxLoss && decide (pnl ≤ -(rp.maxLoss.getD 0))

/-- The target condition `riskParams.targetProfit && pnl >= riskParams.targetProfit`. -/
def targetHit (rp : RiskParams) (pnl : ℤ) : Bool :=
  jsTruthyNum rp.targetProfit && decide (rp.targetProfit.getD 0 ≤ pnl)

/--
The body of the monitor's per-position loop iteration: fetch the symbol's
price, compute and persist the P&L, then — when an owning strategy is
joined — check stop-loss before target (else-if, so at most one fires),
calling the gateway's exit operation and logging WARNING/INFO.  A thrown
call aborts the iteration with the effects already produced; in particular
a throwing exit call leaves the WARNING/INFO log unwritten.
-/
def monOne (env : MonEnv) (p : Position) : MonEffects × Except String Unit :=
  match env.marketLtp p.symbol with
  | .error e => (⟨[], [], []⟩, .error e)
  | .ok ltp =>
    let pnl := calculatePnL p ltp
    let upd : MonEffects := ⟨[(p.id, ltp, pnl)], [], []⟩
    match p.trading_strategies with
    | none => (upd, .ok ())
    | some rp =>
      if stopLossHit rp pnl then
        match env.exitPositionRes p.id with
        | .error e => (⟨upd.updates, [p.id], []⟩, .error e)
        | .ok _ =>
          (⟨upd.updates, [p.id],
            [⟨.WARNING, "Stop loss hit for position " ++ p.symbol, .null⟩]⟩, .ok ())
      else if targetHit rp pnl then
        match env.exitPositionRes p.id with
        | .error e => (⟨upd.updates, [p.id], []⟩, .error e)
        | .ok _ =>
          (⟨upd.updates, [p.id],
            [⟨.INFO, "Target profit reached for position " ++ p.symbol, .null⟩]⟩, .ok ())
      else (upd, .ok ())

/-- Appends the effects of two monitor steps. -/
def appendEff (a b : MonEffects) : MonEffects :=
  ⟨a.updates ++ b.updates, a.exits ++ b.exits, a.logs ++ b.logs⟩

/-- The monitor's `for (const position of positions)` loop: positions are
processed in order; the first thrown call aborts the loop, keeping the
effects produced so far. -/
def monProcess (env : MonEnv) : List Position → MonEffects × Except String Unit
  | [] => (⟨[], [], []⟩, .ok ())
  | p :: rest =>
    let r := monOne env p
    match r.2 with
    | .error e => (r.1, .error e)
    | .ok _ =>
      let rr := monProcess env rest
      (appendEff r.1 rr.1, rr.2)

/-- Result of one monitor tick: the effects plus the console notices
emitted by the surrounding `catch` block. -/
structure TickResult where
  eff : MonEffects
  consoleErrors : List String
  deriving DecidableEq

/--
`monitorPositions(userId)` from the strategy service.  The whole body sits
in a `try`/`catch` whose handler only writes a console notice, so the
function's `Except` result is always `ok`.
-/
def monitorPositions (env : MonEnv) : Except String TickResult :=
  match env.positionsRes with
  | .error e => .ok ⟨⟨[], [], []⟩, [e]⟩
  | .ok none => .ok ⟨⟨[], [], []⟩, []⟩
  | .ok (some ps) =>
    if ps.isEmpty then .ok ⟨⟨[], [], []⟩, []⟩
    else
      let r := monProcess env ps
      match r.2 with
      | .ok _ => .ok ⟨r.1, []⟩
      | .error e => .ok ⟨r.1, [e]⟩

/-- C8: for every behaviour of the remote store and the brokerage gateway
(including throwing calls), a monitor tick returns normally — it never
propagates an error — and failures surface only as at most one
console-level notice. -/
theorem monitorPositions_never_raises (env : MonEnv) :
    ∃ r : TickResult, monitorPositions env = .ok r ∧ r.consoleErrors.length ≤ 1 := by
  rcases hp : env.positionsRes with e | ops
  · exact ⟨⟨⟨[], [], []⟩, [e]⟩, by simp [monitorPositions, hp], by simp⟩
  · rcases ops with _ | ps
    · exact ⟨⟨⟨[], [], []⟩, []⟩, by simp [monitorPositions, hp], by simp⟩
    · rcases hemp : ps.isEmpty with _ | _
      · rcases hmp : (monProcess env ps).2 with e | u
        · exact ⟨⟨(monProcess env ps).1, [e]⟩,
            by simp [monitorPositions, hp, hemp, hmp], by simp⟩
        · exact ⟨⟨(monProcess env ps).1, []⟩,
            by simp [monitorPositions, hp, hemp, hmp], by simp⟩
      · exact ⟨⟨⟨[], [], []⟩, []⟩, by simp [monitorPositions, hp, hemp], by simp⟩

/-- Risk params of the C3 counterexample: `maxLoss` is present but `0`. -/
def rpCex : RiskParams := ⟨none, some 0⟩

/-- Position of the C3 counterexample: BUY, quantity 1, entry 10, lot 15. -/
def posCex : Position := ⟨"pos-1", "RELIANCE", .BUY, 1, 10, some rpCex⟩

/-- Monitor environment of the C3 counterexample: price 8, so the computed
P&L is (8 − 10) × 1 × 15 × 1 = −30 ≤ −maxLoss = 0; the exit call would
succeed if issued. -/
def envCex : MonEnv :=
  ⟨.ok (some [posCex]), fun _ => .ok 8, fun _ => .ok ⟨"ORD-X", .EXECUTED, none⟩⟩

/-- Risk params of the second C3 counterexample input: nonzero `maxLoss`. -/
def rpCex2 : RiskParams := ⟨none, some 5000⟩

/-- Position of the second C3 counterexample input: P&L hits −5000. -/
def posCex2 : Position := ⟨"pos-2", "NIFTY", .BUY, 1, 100, some rpCex2⟩

/-- Environment of the second C3 counterexample input: the gateway's
exit-position call throws. -/
def envCex2 : MonEnv :=
  ⟨.ok (some [posCex2]), fun _ => .ok 0, fun _ => .error "gateway down"⟩

/-- C3 counterexample: the claim fails as stated, in two ways.  First, a
strategy that defines `maxLoss = 0` with P&L = −30 ≤ −maxLoss triggers no
exit call and no WARNING log (the condition tests truthiness, and 0 is
falsy).  Second, with a nonzero `maxLoss` hit exactly, if the gateway's
exit call throws, the exit is attempted but no WARNING log is written. -/
theorem monitor_exit_thresholds_cex :
    (posCex.trading_strategies = some rpCex ∧ rpCex.maxLoss = some 0 ∧
      envCex.marketLtp posCex.symbol = .ok 8 ∧
      calculatePnL posCex 8 ≤ -(0 : ℤ) ∧
      monOne envCex posCex = (⟨[("pos-1", 8, -30)], [], []⟩, .ok ())) ∧
    (rpCex2.maxLoss = some 5000 ∧
      envCex2.marketLtp posCex2.symbol = .ok 0 ∧
      calculatePnL posCex2 0 = -5000 ∧
      stopLossHit rpCex2 (calculatePnL posCex2 0) = true ∧
      monOne envCex2 posCex2 =
        (⟨[("pos-2", 0, -5000)], ["pos-2"], []⟩, .error "gateway down")) := by
  decide

/-- C3 (amended): for a position processed by the monitor whose owning
strategy defines a nonzero (truthy) `maxLoss`, and whose price fetch and —
when needed — exit call return normally: if P&L ≤ −maxLoss, exactly one
exit call and exactly one log, a WARNING, are issued; otherwise, if a
nonzero `targetProfit` is defined and P&L ≥ targetProfit, exactly one exit
call and exactly one log, an INFO, are issued; otherwise neither; loss is
checked before profit and at most one action fires per position per tick. -/
theorem monitor_exit_thresholds_amended (env : MonEnv) (p : Position)
    (rp : RiskParams) (ml ltp : ℤ)
    (hs : p.trading_strategies = some rp)
    (hml : rp.maxLoss = some ml) (hml0 : ml ≠ 0)
    (hmkt : env.marketLtp p.symbol = .ok ltp)
    (hexit : exOk (env.exitPositionRes p.id) = true) :
    (calculatePnL p ltp ≤ -ml →
      monOne env p =
        (⟨[(p.id, ltp, calculatePnL p ltp)], [p.id],
          [⟨.WARNING, "Stop loss hit for position " ++ p.symbol, .null⟩]⟩, .ok ())) ∧
    (-ml < calculatePnL p ltp →
      ∀ tp, rp.targetProfit = some tp → tp ≠ 0 → tp ≤ calculatePnL p ltp →
        monOne env p =
          (⟨[(p.id, ltp, calculatePnL p ltp)], [p.id],
            [⟨.INFO, "Target profit reached for position " ++ p.symbol, .null⟩]⟩, .ok ())) ∧
    (-ml < calculatePnL p ltp → targetHit rp (calculatePnL p ltp) = false →
      monOne env p = (⟨[(p.id, ltp, calculatePnL p ltp)], [], []⟩, .ok ())) ∧
    (monOne env p).1.exits.length ≤ 1 := by
  rcases hex : env.exitPositionRes p.id with e | resp
  · rw [hex] at hexit; simp [exOk] at hexit
  · refine ⟨fun hloss => ?_, fun hgt tp htp htp0 hge => ?_, fun hgt hnt => ?_, ?_⟩
    · have hstop : stopLossHit rp (calculatePnL p ltp) = true := by
        simp [stopLossHit, jsTruthyNum, hml, hml0, hloss]
      simp [monOne, hmkt, hs, hstop, hex]
    · have hstop : stopLossHit rp (calculatePnL p ltp) = false := by
        simp [stopLossHit, jsTruthyNum, hml]
        intro _
        omega
      have htgt : targetHit rp (calculatePnL p ltp) = true := by
        simp [targetHit, jsTruthyNum, htp, htp0, hge]
      simp [monOne, hmkt, hs, hstop, htgt, hex]
    · have hstop : stopLossHit rp (calculatePnL p ltp) = false := by
        simp [stopLossHit, jsTruthyNum, hml]
        intro _
        omega
      simp [monOne, hmkt, hs, hstop, hnt]
    · rcases hstop : stopLossHit rp (calculatePnL p ltp) with _ | _
      · rcases htgt : targetHit rp (calculatePnL p ltp) with _ | _
        · simp [monOne, hmkt, hs, hstop, htgt]
        · simp [monOne, hmkt, hs, hstop, htgt, hex]
      · simp [monOne, hmkt, hs, hstop, hex]

/-- Position of the C3 witness: NIFTY-family (lot 50), BUY, quantity 1,
entry 100, owning strategy with `maxLoss = 5000`. -/
def posC3 : Position := ⟨"pos-3", "NIFTY", .BUY, 1, 100, some ⟨none, some 5000⟩⟩

/-- Environment of the C3 witness stop-loss case: price 0, P&L = −5000. -/
def envC3a : MonEnv :=
  ⟨.ok (some [posC3]), fun _ => .ok 0, fun _ => .ok ⟨"ORD-Y", .EXECUTED, none⟩⟩

/-- Environment of the C3 witness no-action case: price 1, P&L = −4950. -/
def envC3b : MonEnv :=
  ⟨.ok (some [posC3]), fun _ => .ok 1, fun _ => .ok ⟨"ORD-Y", .EXECUTED, none⟩⟩

theorem monitor_exit_thresholds_amended_witness :
    (monOne envC3a posC3 =
        (⟨[("pos-3", 0, calculatePnL posC3 0)], ["pos-3"],
          [⟨.WARNING, "Stop loss hit for position " ++ posC3.symbol, .null⟩]⟩, .ok ())) ∧
    calculatePnL posC3 0 = -5000 ∧
    (monOne envC3b posC3 =
        (⟨[("pos-3", 1, calculatePnL posC3 1)], [], []⟩, .ok ())) ∧
    calculatePnL posC3 1 = -4950 ∧
    stopLossHit ⟨none, some 5000⟩ (-4999) = false ∧
    targetHit ⟨none, some 5000⟩ (-4999) = false :=
  ⟨(monitor_exit_thresholds_amended envC3a posC3 ⟨none, some 5000⟩ 5000 0
      rfl rfl (by decide) rfl (by decide)).1 (by decide),
    by decide,
    (monitor_exit_thresholds_amended envC3b posC3 ⟨none, some 5000⟩ 5000 1
      rfl rfl (by decide) rfl (by decide)).2.2.1 (by decide) (by decide),
    by decide, by decide, by decide⟩

/-- C9: the monitor's exit thresholds are truthiness-tested, not
presence-tested: a `maxLoss` equal to 0 never fires the stop-loss exit
(regardless of how negative the P&L is) and behaves exactly as an absent
field, and likewise a `targetProfit` equal to 0 never fires the target
exit; a position whose strategy sets both thresholds to 0 is updated but
triggers no exit and no log. -/
theorem monitor_zero_threshold_never_fires (rp : RiskParams) (pnl : ℤ)
    (env : MonEnv) (p : Position) (ltp : ℤ)
    (hs : p.trading_strategies = some rp)
    (hmkt : env.marketLtp p.symbol = .ok ltp) :
    (rp.maxLoss = some 0 →
      stopLossHit rp pnl = false ∧
      stopLossHit { rp with maxLoss := none } pnl = false) ∧
    (rp.targetProfit = some 0 →
      targetHit rp pnl = false ∧
      targetHit { rp with targetProfit := none } pnl = false) ∧
    (rp.maxLoss = some 0 → rp.targetProfit = some 0 →
      monOne env p = (⟨[(p.id, ltp, calculatePnL p ltp)], [], []⟩, .ok ())) := by
  refine ⟨fun hml => ?_, fun htp => ?_, fun hml htp => ?_⟩
  · constructor <;> simp [stopLossHit, jsTruthyNum, hml]
  · constructor <;> simp [targetHit, jsTruthyNum, htp]
  · have hstop : stopLossHit rp (calculatePnL p ltp) = false := by
      simp [stopLossHit, jsTruthyNum, hml]
    have htgt : targetHit rp (calculatePnL p ltp) = false := by
      simp [targetHit, jsTruthyNum, htp]
    simp [monOne, hmkt, hs, hstop, htgt]

/-- Position of the C9 witness: both thresholds present but zero. -/
def posC9 : Position := ⟨"pos-9", "BANKNIFTY", .SELL, 2, 500, some ⟨some 0, some 0⟩⟩

/-- Environment of the C9 witness: price 400, P&L = (400−500)×(−1)×15×2. -/
def envC9 : MonEnv :=
  ⟨.ok (some [posC9]), fun _ => .ok 400, fun _ => .ok ⟨"ORD-Z", .EXECUTED, none⟩⟩

theorem monitor_zero_threshold_never_fires_witness :
    (stopLossHit ⟨some 0, some 0⟩ (-1000000) = false ∧
      stopLossHit ⟨some 0, none⟩ (-1000000) = false) ∧
    (targetHit ⟨some 0, some 0⟩ 1000000 = false ∧
      targetHit ⟨none, some 0⟩ 1000000 = false) ∧
    monOne envC9 posC9 = (⟨[("pos-9", 400, calculatePnL posC9 400)], [], []⟩, .ok ()) :=
  ⟨(monitor_zero_threshold_never_fires ⟨some 0, some 0⟩ (-1000000) envC9 posC9 400
      rfl rfl).1 rfl,
    (monitor_zero_threshold_never_fires ⟨some 0, some 0⟩ 1000000 envC9 posC9 400
      rfl rfl).2.1 rfl,
    (monitor_zero_threshold_never_fires ⟨some 0, some 0⟩ 0 envC9 posC9 400
      rfl rfl).2.2 rfl rfl⟩

/-- The `positions` row fields `exitPosition` reads. -/
structure StoredPosition where
  symbol : String
  action : Action
  quantity : ℕ
  current_price : ℤ
  deriving DecidableEq

/-- The mutation `exitPosition` applies to the position row when the exit
order executed: status CLOSED, `closed_at` set to the current time
(modelled as a set-flag), `exit_price` set. -/
structure PositionClose where
  status : PosStatus
  closed_at_set : Bool
  exit_price : ℤ
  deriving DecidableEq

/--
Environment of `exitPosition`: the `.single()` fetch of the position row
(`Except.error` models the query resolving with its error field set, which
the code folds into "Position not found" together with null data), and the
response of the one `placeOrder` call for the opposite-side exit order.
-/
structure ExitEnv where
  positionRes : Except String (Option StoredPosition)
  orderRes : Except String OrderResponse

/-- Observable outcome of `exitPosition`: the exit order submitted (if
any), the update applied to the position row (if any), and the returned or
thrown result. -/
structure ExitOutcome where
  exitOrder : Option OrderRequest
  update : Option PositionClose
  result : Except String OrderResponse

/--
`exitPosition(userId, positionId)` from the brokerage gateway wrapper:
fetch the position row, throw "Position not found" when missing, place a
market intraday order on the opposite side for the same quantity, and only
when that order's response status is EXECUTED mutate the row to CLOSED with
`exit_price` taken from the row's stored `current_price`; the order
response is returned either way.
-/
def exitPosition (env : ExitEnv) : ExitOutcome :=
  match env.positionRes with
  | .error _ => ⟨none, none, .error "Position not found"⟩
  | .ok none => ⟨none, none, .error "Position not found"⟩
  | .ok (some position) =>
    let exitOrder : OrderRequest :=
      { symbol := position.symbol
      , action := if position.action == .BUY then .SELL else .BUY
      , quantity := position.quantity
      , orderType := .MARKET
      , product := .INTRADAY }
    match env.orderRes with
    | .error e => ⟨some exitOrder, none, .error e⟩
    | .ok resp =>
      if resp.status == .EXECUTED then
        ⟨some exitOrder, some ⟨.CLOSED, true, position.current_price⟩, .ok resp⟩
      else
        ⟨some exitOrder, none, .ok resp⟩

/-- C10: given the position row exists and the opposite-side exit order's
call returns a response, `exitPosition` mutates the row — status CLOSED,
`closed_at` set, `exit_price` equal to the row's previously stored
`current_price`, irrespective of anything in the order response — exactly
when the response status is EXECUTED; for PENDING or REJECTED the row is
left untouched (it stays OPEN), and the order response is returned either
way. -/
theorem exitPosition_update_only_on_executed (env : ExitEnv)
    (pos : StoredPosition) (resp : OrderResponse)
    (hp : env.positionRes = .ok (some pos))
    (hr : env.orderRes = .ok resp) :
    (exitPosition env).exitOrder =
      some { symbol := pos.symbol,
             action := if pos.action == .BUY then .SELL else .BUY,
             quantity := pos.quantity, orderType := .MARKET, product := .INTRADAY } ∧
    (exitPosition env).result = .ok resp ∧
    (resp.status = .EXECUTED →
      (exitPosition env).update = some ⟨.CLOSED, true, pos.current_price⟩) ∧
    (resp.status ≠ .EXECUTED → (exitPosition env).update = none) := by
  refine ⟨?_, ?_, fun hst => ?_, fun hst => ?_⟩
  · rcases hex : resp.status == OrderStatus.EXECUTED <;>
      simp [exitPosition, hp, hr, hex]
  · rcases hex : resp.status == OrderStatus.EXECUTED <;>
      simp [exitPosition, hp, hr, hex]
  · simp [exitPosition, hp, hr, hst]
  · have hex : (resp.status == OrderStatus.EXECUTED) = false := by
      simpa using hst
    simp [exitPosition, hp, hr, hex]

/-- Environment of the C10 witness: a BUY position at stored current price
95, whose opposite-side exit order executes. -/
def envC10 : ExitEnv :=
  ⟨.ok (some ⟨"NIFTY24DEC24000CE", .BUY, 1, 95⟩), .ok ⟨"ORD-E", .EXECUTED, none⟩⟩

theorem exitPosition_update_only_on_executed_witness :
    (exitPosition envC10).exitOrder =
      some { symbol := "NIFTY24DEC24000CE",
             action := if Action.BUY == Action.BUY then Action.SELL else Action.BUY,
             quantity := 1, orderType := .MARKET, product := .INTRADAY } ∧
    (exitPosition envC10).result = .ok ⟨"ORD-E", .EXECUTED, none⟩ ∧
    (OrderStatus.EXECUTED = OrderStatus.EXECUTED →
      (exitPosition envC10).update = some ⟨.CLOSED, true, 95⟩) ∧
    (OrderStatus.EXECUTED ≠ OrderStatus.EXECUTED →
      (exitPosition envC10).update = none) :=
  exitPosition_update_only_on_executed envC10
    ⟨"NIFTY24DEC24000CE", .BUY, 1, 95⟩ ⟨"ORD-E", .EXECUTED, none⟩ rfl rfl

end AlgoTrader
